import Mathlib

/-!
# Verification of the incremental ticket-scraper crawler

A shallow embedding of the crawler core of the tg-ticket-bot repository:
the budgeted fetcher (`src/http/fetch-client.ts`), the job queue
(`src/queues/job-queue.ts`), the hash utilities (`src/utils/hash-utils.ts`),
the date discoverer (`src/scrapers/date-finder.ts`), the KV checkpoint store
(`src/storage/kv-storage.ts`) and the orchestrator epilogue of
`src/scrapers/main-scraper.ts`.

External collaborators (the HTTP network, the cheerio HTML parser,
`JSON.stringify`, SHA-256) are modelled as explicit oracle parameters;
everything the crawler itself computes is embedded as executable Lean
functions following the TypeScript source line by line.
-/

namespace TgTicketBot

/-! ## Configuration (`src/config.ts`, `SCRAPER_CONFIG`) -/

/-- The configurable scraper limits, from the `SCRAPER_CONFIG` object. -/
structure ScraperConfig where
  maxRetries : Nat
  maxSubrequests : Nat
  maxConcurrentJobs : Nat
  maxCacheEntries : Nat
  chunkSize : Nat
  baseUrl : String
deriving DecidableEq

/-- The values of `SCRAPER_CONFIG` in `src/config.ts`:
`MAX_RETRIES: 1`, `MAX_SUBREQUESTS: 50`, `MAX_CONCURRENT_JOBS: 1`,
`MAX_CACHE_ENTRIES: 5`, `CHUNK_SIZE: 1`, `BASE_URL`. -/
def SCRAPER_CONFIG : ScraperConfig :=
  { maxRetries := 1
    maxSubrequests := 50
    maxConcurrentJobs := 1
    maxCacheEntries := 5
    chunkSize := 1
    baseUrl := "https://molodyytheatre.com" }

/-! ## Data model (`src/types.ts`, `src/queues/job-queue.ts`) -/

/-- A scraped show record.  The `datetime` field holds the ISO string of the
JavaScript `Date` (the embedding works with the serialized form, which is
what both `createShowId` and `JSON.stringify` consume). -/
structure Show where
  id : String
  title : String
  url : String
  datetime : String
  imageUrl : String
  ticketUrl : String
  soldOut : Bool
  contentHash : String
deriving DecidableEq

/-- A unit of scheduling: `interface Job \x7b url, day \x7d`. -/
structure Job where
  url : String
  day : String
deriving DecidableEq

/-- The durable checkpoint, `interface ScrapingState` in
`src/storage/kv-storage.ts`.  `lastUpdated` is a millisecond timestamp. -/
structure ScrapingState where
  lastUpdated : Int
  allDatesToScrape : List String
  processedDates : List String
  pendingJobs : List Job
  completedShows : List Show
  subrequestCount : Nat
deriving DecidableEq

/-! ## Budgeted fetcher (`src/http/fetch-client.ts`)

The fetcher's module-level mutable state (`subrequestCount`, `pageCache`,
`cacheEntryCount`) becomes an explicit `FetchState`.  The extra
`attemptsMade` field is instrumentation only: it counts how many times the
host `fetch` function was invoked (one per network attempt), which no other
definition reads; it also serves as the index into the network oracle. -/

/-- Errors thrown around the fetcher.  `subrequestLimit` is the
`'Subrequest limit reached'` error thrown by `rateLimit`;
`tooManySubrequests` is the platform's `'Too many subrequests'` error
surfaced by a failing `fetch`; `httpOrNetwork` covers every other failure
(non-2xx status, network error). -/
inductive FetchErr where
  | subrequestLimit
  | tooManySubrequests
  | httpOrNetwork
deriving DecidableEq

/-- The `error.message === 'Subrequest limit reached' || error.message ===
'Too many subrequests'` test that appears in the retry loop and in the job
queue. -/
def FetchErr.isBudget : FetchErr → Bool
  | .subrequestLimit => true
  | .tooManySubrequests => true
  | .httpOrNetwork => false

/-- Outcome of one attempt of the host `fetch` (plus the `response.ok`
check): a body on success, or one of the two failure classes. -/
inductive NetOutcome where
  | ok (body : String)
  | failBudget
  | fail
deriving DecidableEq

/-- A network oracle: the outcome of the n-th network attempt of the
invocation (indexed by `attemptsMade`). -/
def NetOracle := Nat → NetOutcome

/-- The fetcher's mutable module state. -/
structure FetchState where
  subrequestCount : Nat
  pageCache : List (String × String)
  cacheEntryCount : Nat
  attemptsMade : Nat
deriving DecidableEq

/-- The state at module initialisation: counter `0`, empty cache. -/
def initialFetchState : FetchState :=
  { subrequestCount := 0, pageCache := [], cacheEntryCount := 0, attemptsMade := 0 }

/-- The successful-response cache write of `fetchWithRetry`: if
`cacheEntryCount >= MAX_CACHE_ENTRIES` the whole cache is cleared, then the
body is stored under the URL and the entry count bumped. -/
def cacheStore (cfg : ScraperConfig) (url body : String) (s : FetchState) : FetchState :=
  let s :=
    if cfg.maxCacheEntries ≤ s.cacheEntryCount then
      { s with pageCache := [], cacheEntryCount := 0 }
    else s
  { s with pageCache := (url, body) :: s.pageCache,
           cacheEntryCount := s.cacheEntryCount + 1 }

/-- The `for (let i = 0; i < MAX_RETRIES; i++)` retry loop of
`fetchWithRetry`, with the remaining iteration count as fuel.  Each
iteration increments `subrequestCount`, performs one network attempt, and
on failure either rethrows (budget-class message) or falls through to the
next iteration; when the loop exhausts, the last error is thrown. -/
def retryLoop (cfg : ScraperConfig) (net : NetOracle) (url : String) :
    Nat → FetchState → Except FetchErr String × FetchState
  | 0, s => (.error .httpOrNetwork, s)
  | fuel + 1, s =>
    let s1 : FetchState :=
      { s with subrequestCount := s.subrequestCount + 1,
               attemptsMade := s.attemptsMade + 1 }
    match net s.attemptsMade with
    | .ok body => (.ok body, cacheStore cfg url body s1)
    | .failBudget => (.error .tooManySubrequests, s1)
    | .fail => retryLoop cfg net url fuel s1

/-- `fetchWithRetry` from `src/http/fetch-client.ts`: first `rateLimit()`
(throw `'Subrequest limit reached'` if the counter has reached
`MAX_SUBREQUESTS`, otherwise increment it), then the page-cache lookup,
then the retry loop. -/
def fetchWithRetry (cfg : ScraperConfig) (net : NetOracle) (url : String)
    (s : FetchState) : Except FetchErr String × FetchState :=
  if cfg.maxSubrequests ≤ s.subrequestCount then
    (.error .subrequestLimit, s)
  else
    let s1 : FetchState := { s with subrequestCount := s.subrequestCount + 1 }
    match s1.pageCache.lookup url with
    | some body => (.ok body, s1)
    | none => retryLoop cfg net url cfg.maxRetries s1

/-- A sequence of `fetchWithRetry` calls (the URLs an invocation fetches,
in order), threading the fetcher state and discarding the responses. -/
def callsRun (cfg : ScraperConfig) (net : NetOracle) :
    List String → FetchState → FetchState
  | [], s => s
  | url :: rest, s => callsRun cfg net rest (fetchWithRetry cfg net url s).2

/-! ## Job queue (`src/queues/job-queue.ts`)

With `MAX_CONCURRENT_JOBS = 1` and the single-threaded cooperative
scheduling of the host, the queue drains strictly sequentially: `processNext`
pops the head job, awaits `processJob`, and its `finally` block re-invokes
`processNext` for the next job.  The drain below is that sequential
execution.  `parse` is the oracle for the external HTML pipeline of
`processJob` (the quick marker checks, `cheerio.load`, `hasNoEvents` and
`parseShowsFromHtml`), mapping the fetched body and the job's day to the
extracted shows (an empty list when the no-events marker is present). -/

/-- The extraction oracle: body and day to parsed shows. -/
def ParseOracle := String → String → List Show

/-- `JobQueue.processJob`: the up-front subrequest-limit check (throwing
`'Subrequest limit reached'`), then `fetchWithRetry`; a budget-class error
is rethrown, any other error is swallowed (`return []`), and a successful
body goes through the parsing pipeline. -/
def processJob (cfg : ScraperConfig) (net : NetOracle) (parse : ParseOracle)
    (job : Job) (s : FetchState) : Except FetchErr (List Show) × FetchState :=
  if cfg.maxSubrequests ≤ s.subrequestCount then
    (.error .subrequestLimit, s)
  else
    match fetchWithRetry cfg net job.url s with
    | (.error e, s1) => if e.isBudget then (.error e, s1) else (.ok [], s1)
    | (.ok body, s1) => (.ok (parse body job.day), s1)

/-- The observable outcome of draining the queue: `completedJobs` and
`results` as accumulated by `processNext`, the jobs still in `queue`
(returned by `getPendingJobs`), and, as instrumentation, the jobs that were
popped but whose processing threw (they are recorded in no list of the
source). -/
structure DrainResult where
  completed : List Job
  dropped : List Job
  pending : List Job
  results : List Show
  state : FetchState
deriving DecidableEq

/-- Sequential drain of the queue.  Before popping a job, `processNext`
returns early when `getSubrequestCount() >= MAX_SUBREQUESTS` (the popped
job then stays in the queue); a successfully processed job is pushed to
`completedJobs` and its shows to `results`; a job whose processing threw is
caught and recorded nowhere (tracked here in the ghost `dropped` list). -/
def drainQueue (cfg : ScraperConfig) (net : NetOracle) (parse : ParseOracle) :
    FetchState → List Job → DrainResult
  | s, [] => ⟨[], [], [], [], s⟩
  | s, job :: rest =>
    if cfg.maxSubrequests ≤ s.subrequestCount then
      ⟨[], [], job :: rest, [], s⟩
    else
      match processJob cfg net parse job s with
      | (.ok shows, s1) =>
        let r := drainQueue cfg net parse s1 rest
        ⟨job :: r.completed, r.dropped, r.pending, shows ++ r.results, r.state⟩
      | (.error _, s1) =>
        let r := drainQueue cfg net parse s1 rest
        ⟨r.completed, job :: r.dropped, r.pending, r.results, r.state⟩

/-! ## Hash utilities (`src/utils/hash-utils.ts`)

SHA-256 and `JSON.stringify` are external library functions, passed as
oracle parameters (`sha256hex` produces the hex digest of its input). -/

/-- `createShowId(url, datetime)`: hex SHA-256 of ``url + '_' + dateStr``
truncated to 16 characters, where `dateStr` is the ISO string of the
datetime (the embedding receives the ISO string directly). -/
def createShowId (sha256hex : String → String) (url dateStr : String) : String :=
  (sha256hex (url ++ "_" ++ dateStr)).take 16

/-- The `contentToHash` object literal of `calculateShowContentHash`:
exactly the fields `title`, `datetime`, `soldOut`, `ticketUrl` of the
show — the input of the content fingerprint. -/
structure ContentToHash where
  title : String
  datetime : String
  soldOut : Bool
  ticketUrl : String
deriving DecidableEq

/-- The projection of a show onto its fingerprint input. -/
def contentToHash (s : Show) : ContentToHash :=
  ⟨s.title, s.datetime, s.soldOut, s.ticketUrl⟩

/-- `calculateShowContentHash(show)`: hex SHA-256 of
`JSON.stringify(contentToHash)` truncated to 10 characters. -/
def calculateShowContentHash (sha256hex : String → String)
    (jsonStringify : ContentToHash → String) (s : Show) : String :=
  (sha256hex (jsonStringify (contentToHash s))).take 10

/-- The id a show receives in `parseShowsFromHtml`
(`src/scrapers/html-parser.ts`): `createShowId(url, dateTime)`. -/
def showIdOf (sha256hex : String → String) (s : Show) : String :=
  createShowId sha256hex s.url s.datetime

/-! ## Date discoverer (`src/scrapers/date-finder.ts`, `src/utils/date-utils.ts`) -/

/-- The check of one 10-character window against the regular expression
`\d\x7b4\x7d-\d\x7b2\x7d-\d\x7b2\x7d` (four digits, dash, two digits, dash,
two digits). -/
def dateAt : List Char → Option String
  | a :: b :: c :: d :: d1 :: e :: f :: d2 :: g :: h :: _ =>
    if a.isDigit && b.isDigit && c.isDigit && d.isDigit && d1 = '-' &&
       e.isDigit && f.isDigit && d2 = '-' && g.isDigit && h.isDigit then
      some (String.mk [a, b, c, d, d1, e, f, d2, g, h])
    else none
  | _ => none

/-- `url.match(/\d\x7b4\x7d-\d\x7b2\x7d-\d\x7b2\x7d/)`: the leftmost match,
found by trying every start position in order (the pattern is
fixed-length, so this is exactly the regex engine's behaviour). -/
def findDatePattern : List Char → Option String
  | [] => none
  | c :: rest =>
    match dateAt (c :: rest) with
    | some m => some m
    | none => findDatePattern rest

/-- `getDayFromUrl(url)`: the first `YYYY-MM-DD` pattern in the URL, or the
current date (passed in as `today`) when no pattern matches. -/
def getDayFromUrl (today url : String) : String :=
  match findDatePattern url.data with
  | some m => m
  | none => today

/-- One `li.future` element of the calendar list, reduced to what the
discoverer reads: `none` when the element has no anchor, `some none` when
the anchor has no `href` attribute, `some (some h)` when it has one (an
empty `h` is falsy and skipped by the loop below). -/
structure CalEntry where
  anchorHref : Option (Option String)
deriving DecidableEq

/-- The `dateLink.startsWith('http')` test, expressed on the character
lists of the strings. -/
def urlStartsWith (s pre : String) : Bool :=
  pre.data.isPrefixOf s.data

/-- The body of the `.each` loop over `#afisha-date-list > li.future`:
stop at `MAX_EVENTS = 10` pushed dates; for an element with an anchor whose
`href` is truthy, resolve it against `BASE_URL` unless it is absolute, and
push `getDayFromUrl` of the full URL. -/
def collectDates (cfg : ScraperConfig) (today : String) :
    List CalEntry → Nat → List String
  | [], _ => []
  | e :: rest, count =>
    if 10 ≤ count then []
    else
      match e.anchorHref with
      | some (some href) =>
        if href = "" then collectDates cfg today rest count
        else
          let fullUrl := if urlStartsWith href "http" then href else cfg.baseUrl ++ href
          getDayFromUrl today fullUrl :: collectDates cfg today rest (count + 1)
      | some none => collectDates cfg today rest count
      | none => collectDates cfg today rest count

/-- Lexicographic comparison of character lists by code unit, the order
the default JavaScript `Array.prototype.sort()` uses on strings (all
strings the discoverer sorts are ASCII, where code units and code points
coincide). -/
def charListLe : List Char → List Char → Bool
  | [], _ => true
  | _ :: _, [] => false
  | a :: as, b :: bs =>
    if a.toNat < b.toNat then true
    else if b.toNat < a.toNat then false
    else charListLe as bs

/-- The JavaScript default string order on whole strings. -/
def jsStringLe (a b : String) : Bool :=
  charListLe a.data b.data

/-- Insert a string into a list at its sorted position. -/
def insertSorted (a : String) : List String → List String
  | [] => [a]
  | b :: bs => if jsStringLe a b then a :: b :: bs else b :: insertSorted a bs

/-- Insertion sort under the JavaScript default string order —
`datesWithEvents.sort()`.  (The engine's sort is a different algorithm but
computes the same stable ascending reordering.) -/
def sortStrings : List String → List String
  | [] => []
  | a :: as => insertSorted a (sortStrings as)

/-- `findDatesWithEvents(startDate)`: collect the (at most 10) linked
future dates of the calendar page and sort them with the default
JavaScript string sort.  `page = none` models the catch branch: a failed
calendar fetch leaves the list empty. -/
def findDatesWithEvents (cfg : ScraperConfig) (today : String)
    (page : Option (List CalEntry)) : List String :=
  let datesWithEvents :=
    match page with
    | none => []
    | some entries => collectDates cfg today entries 0
  sortStrings datesWithEvents

/-! ## Checkpoint store (`src/storage/kv-storage.ts`)

The Cloudflare KV namespace is modelled as an association list of string
keys and values (`put` conses a binding, `get` finds the newest one); the
TTL argument of `put` is outside the time-free model. -/

/-- `kv.get` on the modelled namespace. -/
def kvGet (kv : List (String × String)) (key : String) : Option String :=
  kv.lookup key

/-- `kv.put` on the modelled namespace. -/
def kvPut (kv : List (String × String)) (key value : String) :
    List (String × String) :=
  (key, value) :: kv

/-- What reading the `scraper:state` key can yield, seen through
`JSON.parse`: the key is absent, the read threw, the stored string did not
parse, or it parsed to a state. -/
inductive KVReadResult where
  | absent
  | readFailure
  | malformed
  | value (st : ScrapingState)
deriving DecidableEq

/-- The staleness test of `loadScraperState`:
`(Date.now() - state.lastUpdated) / (1000 * 60 * 60) > 4`.  The source
divides the millisecond age by 3600000 and compares the quotient with 4;
over the rationals (and over the exactly represented integer doubles
involved) that is equivalent to comparing the age itself with
`4 * 1000 * 60 * 60` ms, which is the form used here. -/
def stateTooOld (now lastUpdated : Int) : Bool :=
  decide (4 * (1000 * 60 * 60) < now - lastUpdated)

/-- `KVStorage.loadScraperState`: return the in-memory `stateCache` when
set; otherwise read the `scraper:state` key, returning `null` (and only
logging) when the key is absent, the read throws, the JSON does not parse,
or the state is older than four hours; a fresh state is cached and
returned. -/
def loadScraperState (stateCache : Option ScrapingState)
    (stored : KVReadResult) (now : Int) : Option ScrapingState :=
  match stateCache with
  | some st => some st
  | none =>
    match stored with
    | .absent => none
    | .readFailure => none
    | .malformed => none
    | .value st => if stateTooOld now st.lastUpdated then none else some st

/-- The fields of a `KVStorage` instance that the show bookkeeping uses:
the in-memory id cache, the cached count, and the KV namespace. -/
structure KVStorageState where
  cachedShowIds : List String
  showCountCache : Option Nat
  kv : List (String × String)
deriving DecidableEq

/-- `KVStorage.saveShow(show)`: add the id to the in-memory cache and put
the serialized show under `'show:' + show.id`. -/
def saveShow (jsonStringify : Show → String) (st : KVStorageState)
    (s : Show) : KVStorageState :=
  { st with cachedShowIds := s.id :: st.cachedShowIds,
            kv := kvPut st.kv ("show:" ++ s.id) (jsonStringify s) }

/-- `KVStorage.showExists(showId)`: true from the in-memory cache, else a
KV read of `'show:' + showId` (caching a hit); a read failure yields
`false` — the model returns the possibly updated instance state too. -/
def showExists (st : KVStorageState) (showId : String) :
    Bool × KVStorageState :=
  if showId ∈ st.cachedShowIds then (true, st)
  else
    match kvGet st.kv ("show:" ++ showId) with
    | some _ => (true, { st with cachedShowIds := showId :: st.cachedShowIds })
    | none => (false, st)

/-- `KVStorage.clearAllShows`: clear the two in-memory caches and put
`'0'` under `shows:count` — `// Just reset the count, leave the shows`. -/
def clearAllShows (st : KVStorageState) : KVStorageState :=
  { st with cachedShowIds := [],
            showCountCache := some 0,
            kv := kvPut st.kv "shows:count" "0" }

/-! ## Orchestrator epilogue (`src/scrapers/main-scraper.ts`, `scrapeShows`)

After `Promise.race([jobQueue.waitForCompletion(), timeoutPromise])`
resolves and the completed jobs are folded into `processedDates`,
`scrapeShows` merges the result lists, computes `isComplete`, and clears or
saves the checkpoint.  That epilogue is a pure function of the snapshot
below (the branch where `kvStorage` is available). -/

/-- The values the epilogue of `scrapeShows` reads. -/
structure OrchestratorSnapshot where
  timeoutReached : Bool
  subrequestCount : Nat
  pendingJobs : List Job
  processedDates : List String
  allDatesToScrape : List String
  allShows : List Show
  now : Int
deriving DecidableEq

/-- The merge of new results:
`timeoutReached ? [...newCompletedShows, ...jobQueue.getResults()] :
newCompletedShows`. -/
def allNewShowsOf (timeoutReached : Bool)
    (newCompletedShows queueResults : List Show) : List Show :=
  if timeoutReached then newCompletedShows ++ queueResults
  else newCompletedShows

/-- The merge into the accumulated result set:
`[...(previousState?.completedShows || []), ...allNewShows]`. -/
def allShowsOf (prevCompleted : Option (List Show)) (allNewShows : List Show) :
    List Show :=
  (match prevCompleted with
   | some shows => shows
   | none => []) ++ allNewShows

/-- The completion flag of `scrapeShows`:
`!timeoutReached && getSubrequestCount() < MAX_SUBREQUESTS &&
jobQueue.getPendingJobs().length === 0 &&
processedDates.length === allDatesToScrape.length`. -/
def isComplete (cfg : ScraperConfig) (o : OrchestratorSnapshot) : Bool :=
  !o.timeoutReached &&
    decide (o.subrequestCount < cfg.maxSubrequests) &&
    (o.pendingJobs.length == 0) &&
    (o.processedDates.length == o.allDatesToScrape.length)

/-- Modelled from the spec: the completion flag as claim C4 states it —
`(no pending jobs remain) AND (no dates remain unprocessed) AND (the
request budget is not exhausted)`, without the timeout conjunct. -/
def isCompleteClaimed (cfg : ScraperConfig) (o : OrchestratorSnapshot) : Bool :=
  (o.pendingJobs.length == 0) &&
    (o.processedDates.length == o.allDatesToScrape.length) &&
    decide (o.subrequestCount < cfg.maxSubrequests)

/-- The `ScrapingState` the epilogue builds for `saveScraperState`. -/
def savedStateOf (o : OrchestratorSnapshot) : ScrapingState :=
  { lastUpdated := o.now
    allDatesToScrape := o.allDatesToScrape
    processedDates := o.processedDates
    pendingJobs := o.pendingJobs
    completedShows := o.allShows
    subrequestCount := o.subrequestCount }

/-- What the epilogue does to the checkpoint. -/
inductive CheckpointAction where
  | clearState
  | save (st : ScrapingState)
  | noAction
deriving DecidableEq

/-- The checkpoint branch of the epilogue: clear the state when
`isComplete`; otherwise save the updated state, but only
`if (timeoutReached || getSubrequestCount() >= MAX_SUBREQUESTS)`; in every
other case the stored checkpoint is left untouched. -/
def checkpointAction (cfg : ScraperConfig) (o : OrchestratorSnapshot) :
    CheckpointAction :=
  if isComplete cfg o then .clearState
  else if o.timeoutReached || cfg.maxSubrequests ≤ o.subrequestCount then
    .save (savedStateOf o)
  else .noAction

/-! ## Sample inputs

Concrete values used to evaluate the embedded definitions. -/

/-- Sample record: a show on the page for 2025-06-01. -/
def sampleShowA : Show :=
  ⟨"i1", "Hamlet", "u1", "2025-06-01T18:00:00.000Z", "img", "t1", false, "h1"⟩

/-- Sample record: same `id`, `url` and `datetime` as `sampleShowA`, but a
different title, ticket URL and sold-out flag. -/
def sampleShowB : Show :=
  ⟨"i1", "Macbeth", "u1", "2025-06-01T18:00:00.000Z", "img", "t2", true, "h2"⟩

/-! ## Helper lemmas -/

/-- Keys of individual shows never collide with the `shows:count` metadata
key: the fifth character of `'show:' + id` is `':'`, of `shows:count` is
`'s'`. -/
theorem showKey_ne_countKey (id : String) : ("show:" ++ id) ≠ "shows:count" := by
  intro h
  have h4 : (("show:" ++ id).data).get? 4 = ("shows:count" : String).data.get? 4 :=
    congrArg (fun l => List.get? l 4) (congrArg String.data h)
  have e1 : ("show:" ++ id).data = 's' :: 'h' :: 'o' :: 'w' :: ':' :: id.data := rfl
  have e2 : ("shows:count" : String).data =
      's' :: 'h' :: 'o' :: 'w' :: 's' :: ':' :: 'c' :: 'o' :: 'u' :: 'n' :: 't' :: [] := rfl
  rw [e1, e2] at h4
  simp only [List.get?_cons_succ, List.get?_cons_zero] at h4
  injection h4 with h4
  exact absurd h4 (by decide)

/-! ## C7 — identifier stability and fingerprint sensitivity -/

/-- C7: the record id is a function of the source URL and the occurrence
datetime alone — two shows with equal `url` and `datetime` receive the same
id regardless of `title`, `soldOut` and `ticketUrl` — while any difference
in one of those three mutable fields changes the content-fingerprint input
object. -/
theorem c7_id_independent_fingerprint_sensitive (sha256hex : String → String)
    (s1 s2 : Show) (hurl : s1.url = s2.url) (hdt : s1.datetime = s2.datetime) :
    showIdOf sha256hex s1 = showIdOf sha256hex s2 ∧
      (s1.title ≠ s2.title ∨ s1.soldOut ≠ s2.soldOut ∨ s1.ticketUrl ≠ s2.ticketUrl →
        contentToHash s1 ≠ contentToHash s2) := by
  constructor
  · simp [showIdOf, createShowId, hurl, hdt]
  · intro hdiff heq
    have h1 : s1.title = s2.title := congrArg ContentToHash.title heq
    have h2 : s1.soldOut = s2.soldOut := congrArg ContentToHash.soldOut heq
    have h3 : s1.ticketUrl = s2.ticketUrl := congrArg ContentToHash.ticketUrl heq
    rcases hdiff with h | h | h
    · exact h h1
    · exact h h2
    · exact h h3

/-- C7 witness: evaluated on two concrete shows differing in title,
sold-out flag and ticket URL only. -/
theorem c7_witness :
    showIdOf (fun x => x) sampleShowA = showIdOf (fun x => x) sampleShowB ∧
      contentToHash sampleShowA ≠ contentToHash sampleShowB := by
  have h := c7_id_independent_fingerprint_sensitive (fun x => x)
    sampleShowA sampleShowB rfl rfl
  exact ⟨h.1, h.2 (Or.inl (by decide))⟩

/-! ## C3 — the orchestrator merge is concatenation, not an id-keyed merge -/

/-- C3 counterexample: merging a new record whose id equals that of an
already accumulated record keeps both — the merged list holds two distinct
records with the same id, so the merge is not keyed by id and the later
record does not overwrite the earlier one. -/
theorem c3_counterexample :
    allShowsOf (some [sampleShowA]) [sampleShowB] = [sampleShowA, sampleShowB] ∧
      sampleShowA.id = sampleShowB.id ∧ sampleShowA ≠ sampleShowB := by
  refine ⟨rfl, rfl, by decide⟩

/-- C3 amended: the orchestrator combines results by plain list
concatenation — previously accumulated shows followed by all new shows
(with the queue results appended when the timeout fired).  Every record of
both inputs is retained, lengths and per-id occurrence counts add, so a
record scraped again under the same id appears twice; nothing is
overwritten or deduplicated. -/
theorem c3_merge_is_concatenation (prev new : List Show) (i : String)
    (a b : List Show) :
    (allShowsOf (some prev) new).length = prev.length + new.length ∧
      (∀ s : Show, s ∈ allShowsOf (some prev) new ↔ s ∈ prev ∨ s ∈ new) ∧
      (allShowsOf (some prev) new).countP (fun s => s.id == i) =
        prev.countP (fun s => s.id == i) + new.countP (fun s => s.id == i) ∧
      allShowsOf none new = new ∧
      allNewShowsOf true a b = a ++ b ∧ allNewShowsOf false a b = a := by
  refine ⟨?_, ?_, ?_, rfl, rfl, rfl⟩
  · simp [allShowsOf]
  · intro s; simp [allShowsOf]
  · simp [allShowsOf, List.countP_append]

/-! ## C10 — `clearAllShows` leaves the individual show entries intact -/

/-- C10: `clearAllShows` empties the in-memory caches and resets the
stored show count to `'0'`, but deletes no `show:<id>` entry: every KV key
other than `shows:count` reads exactly as before, and a show saved earlier
still satisfies `showExists` after the clear. -/
theorem c10_clearAllShows_keeps_show_entries (jsonStringify : Show → String)
    (st : KVStorageState) (s : Show) (k : String) :
    (showExists (clearAllShows (saveShow jsonStringify st s)) s.id).1 = true ∧
      kvGet (clearAllShows st).kv k =
        (if k = "shows:count" then some "0" else kvGet st.kv k) ∧
      (clearAllShows st).cachedShowIds = [] ∧
      (clearAllShows st).showCountCache = some 0 := by
  refine ⟨?_, ?_, rfl, rfl⟩
  · have hne : ("show:" ++ s.id == "shows:count") = false := by
      rw [beq_eq_false_iff_ne]
      exact showKey_ne_countKey s.id
    simp [showExists, clearAllShows, saveShow, kvGet, kvPut, List.lookup, hne]
  · by_cases hk : k = "shows:count"
    · simp [clearAllShows, kvGet, kvPut, List.lookup, hk]
    · have hne : (k == "shows:count") = false := by
        rw [beq_eq_false_iff_ne]
        exact hk
      simp [clearAllShows, kvGet, kvPut, List.lookup, hne, hk]

/-! ## C5 — checkpoint loading degrades to `null`, stale states are not resumed -/

/-- C5: with the per-invocation `stateCache` still empty (as at the start
of an invocation), `loadScraperState` returns `null` — it never throws —
whenever the stored checkpoint is absent, the read fails, the stored JSON
does not parse, or the parsed state is older than the 4-hour freshness
window; and when it does return a state, that state is the stored one and
is fresh, so a stale CrawlState is never resumed. -/
theorem c5_load_null_on_absent_malformed_or_stale (now : Int) (st : ScrapingState) :
    loadScraperState none .absent now = none ∧
      loadScraperState none .readFailure now = none ∧
      loadScraperState none .malformed now = none ∧
      (stateTooOld now st.lastUpdated = true →
        loadScraperState none (.value st) now = none) ∧
      (stateTooOld now st.lastUpdated = false →
        loadScraperState none (.value st) now = some st) := by
  refine ⟨rfl, rfl, rfl, ?_, ?_⟩ <;> intro h <;> simp [loadScraperState, h]

/-- C5 witness: a checkpoint written at time 0 and read 14400001 ms (just
over four hours) later is discarded; an absent checkpoint also loads as
`null`. -/
theorem c5_witness :
    loadScraperState none (.value ⟨0, [], [], [], [], 0⟩) 14400001 = none ∧
      loadScraperState none .absent 14400001 = none := by
  have h := c5_load_null_on_absent_malformed_or_stale 14400001 ⟨0, [], [], [], [], 0⟩
  exact ⟨h.2.2.2.1 (by decide), h.1⟩

/-! ## C9 — date discovery is sorted and bounded, but not de-duplicated -/

/-- Totality of the JavaScript string order: when `a ≤ b` fails, `b ≤ a`
holds. -/
theorem charListLe_total (as bs : List Char) :
    charListLe as bs = true ∨ charListLe bs as = true := by
  induction as generalizing bs with
  | nil => left; rfl
  | cons a as ih =>
    cases bs with
    | nil => right; rfl
    | cons b bs =>
      by_cases hab : a.toNat < b.toNat
      · left; simp [charListLe, hab]
      · by_cases hba : b.toNat < a.toNat
        · right; simp [charListLe, hba]
        · rcases ih bs with h | h
          · left; simp [charListLe, hab, hba, h]
          · right; simp [charListLe, hba, hab, h]

/-- Transitivity of the JavaScript string order. -/
theorem charListLe_trans (as bs cs : List Char)
    (h1 : charListLe as bs = true) (h2 : charListLe bs cs = true) :
    charListLe as cs = true := by
  induction as generalizing bs cs with
  | nil => rfl
  | cons a as ih =>
    cases bs with
    | nil => simp [charListLe] at h1
    | cons b bs =>
      cases cs with
      | nil => simp [charListLe] at h2
      | cons c cs =>
        simp only [charListLe] at h1 h2 ⊢
        by_cases hab : a.toNat < b.toNat
        · by_cases hbc : b.toNat < c.toNat
          · simp [Nat.lt_trans hab hbc]
          · rw [if_neg hbc] at h2
            by_cases hcb : c.toNat < b.toNat
            · rw [if_pos hcb] at h2; simp at h2
            · have hac : a.toNat < c.toNat := by omega
              simp [hac]
        · rw [if_neg hab] at h1
          by_cases hba : b.toNat < a.toNat
          · rw [if_pos hba] at h1; simp at h1
          · rw [if_neg hba] at h1
            by_cases hbc : b.toNat < c.toNat
            · have hac : a.toNat < c.toNat := by omega
              simp [hac]
            · rw [if_neg hbc] at h2
              by_cases hcb : c.toNat < b.toNat
              · rw [if_pos hcb] at h2; simp at h2
              · rw [if_neg hcb] at h2
                have hac : ¬ a.toNat < c.toNat := by omega
                have hca : ¬ c.toNat < a.toNat := by omega
                rw [if_neg hac, if_neg hca]
                exact ih bs cs h1 h2

/-- Transitivity, at the string level. -/
theorem jsStringLe_trans (a b c : String) (h1 : jsStringLe a b = true)
    (h2 : jsStringLe b c = true) : jsStringLe a c = true :=
  charListLe_trans a.data b.data c.data h1 h2

/-- Totality, at the string level. -/
theorem jsStringLe_total (a b : String) :
    jsStringLe a b = true ∨ jsStringLe b a = true :=
  charListLe_total a.data b.data

/-- Membership in an inserted list. -/
theorem mem_insertSorted (a x : String) (l : List String) :
    x ∈ insertSorted a l ↔ x = a ∨ x ∈ l := by
  induction l with
  | nil => simp [insertSorted]
  | cons b bs ih =>
    by_cases h : jsStringLe a b
    · simp [insertSorted, h]
    · simp [insertSorted, h, ih]
      tauto

/-- Inserting into a sorted list keeps it sorted. -/
theorem pairwise_insertSorted (a : String) (l : List String)
    (hl : l.Pairwise (fun x y => jsStringLe x y = true)) :
    (insertSorted a l).Pairwise (fun x y => jsStringLe x y = true) := by
  induction l with
  | nil => simp [insertSorted]
  | cons b bs ih =>
    rcases List.pairwise_cons.mp hl with ⟨hb, hbs⟩
    by_cases h : jsStringLe a b = true
    · rw [show insertSorted a (b :: bs) = a :: b :: bs by simp [insertSorted, h]]
      refine List.pairwise_cons.mpr ⟨?_, hl⟩
      intro y hy
      rcases List.mem_cons.mp hy with rfl | hy
      · exact h
      · exact jsStringLe_trans a b y h (hb y hy)
    · rw [show insertSorted a (b :: bs) = b :: insertSorted a bs by
        simp [insertSorted, h]]
      refine List.pairwise_cons.mpr ⟨?_, ih hbs⟩
      intro y hy
      rcases (mem_insertSorted a y bs).mp hy with rfl | hy
      · rcases jsStringLe_total y b with h1 | h1
        · exact absurd h1 h
        · exact h1
      · exact hb y hy

/-- The sort of the discoverer produces a list that is pairwise ascending
under the JavaScript string order. -/
theorem pairwise_sortStrings (l : List String) :
    (sortStrings l).Pairwise (fun x y => jsStringLe x y = true) := by
  induction l with
  | nil => simp [sortStrings]
  | cons a as ih => exact pairwise_insertSorted a (sortStrings as) ih

/-- Sorting preserves length. -/
theorem length_sortStrings (l : List String) :
    (sortStrings l).length = l.length := by
  induction l with
  | nil => rfl
  | cons a as ih =>
    have hins : ∀ (x : String) (m : List String),
        (insertSorted x m).length = m.length + 1 := by
      intro x m
      induction m with
      | nil => rfl
      | cons b bs ihm =>
        by_cases h : jsStringLe x b
        · simp [insertSorted, h]
        · simp [insertSorted, h, ihm]
    simp [sortStrings, hins, ih]

/-- Bound on the collection loop: at most `10 - count` further dates are
pushed. -/
theorem collectDates_length_le (cfg : ScraperConfig) (today : String) :
    ∀ (es : List CalEntry) (count : Nat),
      (collectDates cfg today es count).length ≤ 10 - count := by
  intro es
  induction es with
  | nil => intro c; simp [collectDates]
  | cons e rest ih =>
    intro c
    by_cases hc : 10 ≤ c
    · simp [collectDates, hc]
    · cases he : e.anchorHref with
      | none => simpa [collectDates, hc, he] using ih c
      | some o =>
        cases o with
        | none => simpa [collectDates, hc, he] using ih c
        | some href =>
          by_cases hemp : href = ""
          · simpa [collectDates, hc, he, hemp] using ih c
          · have hrec := ih (c + 1)
            simp [collectDates, hc, he, hemp]
            omega

/-- C9 counterexample: a calendar page whose two future entries link to
the same date yields that date twice — `findDatesWithEvents` does not
de-duplicate. -/
theorem c9_counterexample :
    findDatesWithEvents SCRAPER_CONFIG "2025-01-01"
        (some [⟨some (some "/afisha/2025-06-02")⟩, ⟨some (some "/afisha/2025-06-02")⟩]) =
      ["2025-06-02", "2025-06-02"] ∧
      ¬ (findDatesWithEvents SCRAPER_CONFIG "2025-01-01"
          (some [⟨some (some "/afisha/2025-06-02")⟩,
                 ⟨some (some "/afisha/2025-06-02")⟩])).Nodup := by
  constructor
  · decide
  · decide

/-- C9 amended: for every start date and calendar page the discoverer
returns a list of dates sorted in ascending (non-strict) order under the
JavaScript string order and bounded by the per-invocation maximum of 10; a
date linked more than once may however appear more than once (no
de-duplication). -/
theorem c9_dates_sorted_and_bounded (cfg : ScraperConfig) (today : String)
    (page : Option (List CalEntry)) :
    (findDatesWithEvents cfg today page).Pairwise (fun x y => jsStringLe x y = true) ∧
      (findDatesWithEvents cfg today page).length ≤ 10 := by
  constructor
  · exact pairwise_sortStrings _
  · unfold findDatesWithEvents
    rw [length_sortStrings]
    cases page with
    | none => simp
    | some entries => simpa using collectDates_length_le cfg today entries 0

/-! ## C2 — a cache hit passes through the budget gate -/

/-- C2 counterexample: on a state whose cache holds `u` and whose counter
is 0, `fetchWithRetry` serves the cached body yet leaves the counter at 1,
not 0 — the cache hit consumed a budget unit; on the same cache with the
counter at the ceiling (50), even the cached URL fails with the budget
error, so the ceiling check is consulted before the cache. -/
theorem c2_counterexample :
    (fetchWithRetry SCRAPER_CONFIG (fun _ => .fail) "u"
        ⟨0, [("u", "body")], 1, 0⟩).1 = .ok "body" ∧
      (fetchWithRetry SCRAPER_CONFIG (fun _ => .fail) "u"
          ⟨0, [("u", "body")], 1, 0⟩).2.subrequestCount ≠ 0 ∧
      (fetchWithRetry SCRAPER_CONFIG (fun _ => .fail) "u"
          ⟨50, [("u", "body")], 1, 0⟩).1 = .error .subrequestLimit := by
  refine ⟨rfl, by decide, rfl⟩

/-- C2 amended: for a URL present in the page cache, `fetchWithRetry`
returns the cached body with no network attempt (the whole state change is
the counter increment), but only after the budget gate: below the ceiling
the counter still increases by one, and at the ceiling the call fails with
the budget error even though the response is cached. -/
theorem c2_cache_hit_after_budget_gate (cfg : ScraperConfig) (net : NetOracle)
    (url body : String) (s : FetchState)
    (hc : s.pageCache.lookup url = some body) :
    (s.subrequestCount < cfg.maxSubrequests →
      fetchWithRetry cfg net url s =
        (.ok body, { s with subrequestCount := s.subrequestCount + 1 })) ∧
      (cfg.maxSubrequests ≤ s.subrequestCount →
        fetchWithRetry cfg net url s = (.error .subrequestLimit, s)) := by
  constructor
  · intro h
    simp [fetchWithRetry, Nat.not_le.mpr h, hc]
  · intro h
    simp [fetchWithRetry, h]

/-- C2 witness: a cache hit below the ceiling — counter 3 becomes 4, the
attempt counter stays 7, the cached body is returned. -/
theorem c2_witness :
    fetchWithRetry SCRAPER_CONFIG (fun _ => .fail) "u" ⟨3, [("u", "body")], 1, 7⟩ =
      (.ok "body", ⟨4, [("u", "body")], 1, 7⟩) := by
  exact (c2_cache_hit_after_budget_gate SCRAPER_CONFIG (fun _ => .fail) "u" "body"
    ⟨3, [("u", "body")], 1, 7⟩ (by decide)).1 (by decide)

/-! ## C4 — completion flag and checkpoint handling -/

/-- Unfolding of the completion flag into its four conjuncts. -/
theorem isComplete_iff (cfg : ScraperConfig) (o : OrchestratorSnapshot) :
    isComplete cfg o = true ↔
      (o.timeoutReached = false ∧ o.subrequestCount < cfg.maxSubrequests ∧
        o.pendingJobs = [] ∧
        o.processedDates.length = o.allDatesToScrape.length) := by
  simp [isComplete, List.length_eq_zero, and_assoc]

/-- C4 counterexample: first, with all jobs drained, every date processed
and budget remaining but the wall-clock timeout fired, the code's flag is
`false` while the claimed conjunction of the three conditions is `true`;
second, on a run that finished early with an unprocessed date left (no
timeout, budget remaining), the flag is `false` and yet the checkpoint is
neither saved nor cleared, contradicting the claim that a false flag saves
the updated CrawlState. -/
theorem c4_counterexample :
    isComplete SCRAPER_CONFIG ⟨true, 0, [], ["2025-06-01"], ["2025-06-01"], [], 0⟩ = false ∧
      isCompleteClaimed SCRAPER_CONFIG
        ⟨true, 0, [], ["2025-06-01"], ["2025-06-01"], [], 0⟩ = true ∧
      isComplete SCRAPER_CONFIG ⟨false, 0, [], [], ["2025-06-01"], [], 0⟩ = false ∧
      checkpointAction SCRAPER_CONFIG ⟨false, 0, [], [], ["2025-06-01"], [], 0⟩ =
        .noAction := by
  refine ⟨rfl, rfl, rfl, rfl⟩

/-- C4 amended: the completion flag is the conjunction of four conditions —
no timeout, budget not exhausted, no pending jobs, and as many processed
dates as discovered dates; the checkpoint is cleared exactly when the flag
is true; when the flag is false the updated CrawlState (dates, processed
dates, pending jobs, accumulated shows, request counter) is saved exactly
when the timeout fired or the budget is exhausted, and in the remaining
case (incomplete without timeout or budget exhaustion) the stored
checkpoint is left untouched. -/
theorem c4_checkpoint_characterization (cfg : ScraperConfig)
    (o : OrchestratorSnapshot) :
    (checkpointAction cfg o = .clearState ↔
      (o.timeoutReached = false ∧ o.subrequestCount < cfg.maxSubrequests ∧
        o.pendingJobs = [] ∧
        o.processedDates.length = o.allDatesToScrape.length)) ∧
      (checkpointAction cfg o = .save (savedStateOf o) ↔
        (isComplete cfg o = false ∧
          (o.timeoutReached = true ∨ cfg.maxSubrequests ≤ o.subrequestCount))) ∧
      (checkpointAction cfg o = .noAction ↔
        (isComplete cfg o = false ∧ o.timeoutReached = false ∧
          o.subrequestCount < cfg.maxSubrequests)) ∧
      (savedStateOf o).pendingJobs = o.pendingJobs ∧
      (savedStateOf o).processedDates = o.processedDates ∧
      (savedStateOf o).allDatesToScrape = o.allDatesToScrape ∧
      (savedStateOf o).completedShows = o.allShows ∧
      (savedStateOf o).subrequestCount = o.subrequestCount := by
  have hiff := isComplete_iff cfg o
  by_cases h1 : isComplete cfg o = true
  · have ha : checkpointAction cfg o = .clearState := by
      simp [checkpointAction, h1]
    refine ⟨?_, ?_, ?_, rfl, rfl, rfl, rfl, rfl⟩
    · simp [ha, hiff.mp h1]
    · simp [ha, h1]
    · simp [ha, h1]
  · have h1f : isComplete cfg o = false := by
      cases hh : isComplete cfg o
      · rfl
      · exact absurd hh h1
    by_cases h2 : o.timeoutReached = true ∨ cfg.maxSubrequests ≤ o.subrequestCount
    · have hb : (o.timeoutReached || decide (cfg.maxSubrequests ≤ o.subrequestCount)) = true := by
        rcases h2 with h | h
        · simp [h]
        · simp [h]
      have ha : checkpointAction cfg o = .save (savedStateOf o) := by
        simp [checkpointAction, h1f, hb]
      refine ⟨?_, ?_, ?_, rfl, rfl, rfl, rfl, rfl⟩
      · constructor
        · intro hcl
          rw [ha] at hcl
          exact absurd hcl (by simp)
        · intro hconds
          exact absurd (hiff.mpr hconds) (by simp [h1f])
      · simp [ha, h1f, h2]
      · constructor
        · intro hno
          rw [ha] at hno
          exact absurd hno (by simp)
        · rintro ⟨_, ht, hcnt⟩
          rcases h2 with h | h
          · rw [ht] at h
            exact absurd h (by simp)
          · omega
    · push_neg at h2
      have hb : (o.timeoutReached || decide (cfg.maxSubrequests ≤ o.subrequestCount)) = false := by
        have ht : o.timeoutReached = false := by
          cases hh : o.timeoutReached
          · rfl
          · exact absurd hh h2.1
        simp [ht, h2.2]
      have ha : checkpointAction cfg o = .noAction := by
        simp [checkpointAction, h1f, hb]
      refine ⟨?_, ?_, ?_, rfl, rfl, rfl, rfl, rfl⟩
      · constructor
        · intro hcl
          rw [ha] at hcl
          exact absurd hcl (by simp)
        · intro hconds
          exact absurd (hiff.mpr hconds) (by simp [h1f])
      · constructor
        · intro hs
          rw [ha] at hs
          exact absurd hs (by simp)
        · rintro ⟨_, h⟩
          rcases h with h | h
          · exact absurd h h2.1
          · exact absurd h (by omega)
      · constructor
        · intro _
          refine ⟨h1f, ?_, by omega⟩
          cases hh : o.timeoutReached
          · rfl
          · exact absurd hh h2.1
        · intro _
          exact ha

/-- C4 witness: a timed-out snapshot with one pending job saves exactly the
updated state. -/
theorem c4_witness :
    checkpointAction SCRAPER_CONFIG
        ⟨true, 5, [⟨"u", "2025-06-01"⟩], [], ["2025-06-01"], [], 0⟩ =
      .save (savedStateOf ⟨true, 5, [⟨"u", "2025-06-01"⟩], [], ["2025-06-01"], [], 0⟩) := by
  exact ((c4_checkpoint_characterization SCRAPER_CONFIG
    ⟨true, 5, [⟨"u", "2025-06-01"⟩], [], ["2025-06-01"], [], 0⟩).2.1).mpr
    (by refine ⟨rfl, Or.inl rfl⟩)

/-! ## C8 — budget exhaustion fails fast and stops scheduling -/

/-- The retry loop never produces the `'Subrequest limit reached'` error:
its failures are the platform budget message or an ordinary fetch error. -/
theorem retryLoop_ne_subrequestLimit (cfg : ScraperConfig) (net : NetOracle)
    (url : String) :
    ∀ (fuel : Nat) (s : FetchState),
      (retryLoop cfg net url fuel s).1 ≠ .error .subrequestLimit := by
  intro fuel
  induction fuel with
  | zero => intro s; simp [retryLoop]
  | succ n ih =>
    intro s
    simp only [retryLoop]
    cases net s.attemptsMade with
    | ok body => simp
    | failBudget => simp
    | fail => exact ih _

/-- A job's processing yields the `'Subrequest limit reached'` error only
when the counter is already at the ceiling. -/
theorem processJob_subrequestLimit_implies_ceiling (cfg : ScraperConfig)
    (net : NetOracle) (parse : ParseOracle) (job : Job) (s : FetchState)
    (h : (processJob cfg net parse job s).1 = .error .subrequestLimit) :
    cfg.maxSubrequests ≤ s.subrequestCount := by
  by_contra hc
  rw [processJob, if_neg hc] at h
  rw [fetchWithRetry, if_neg hc] at h
  cases hl : List.lookup job.url s.pageCache with
  | some body => simp only [hl] at h; simp at h
  | none =>
    rcases hr : retryLoop cfg net job.url cfg.maxRetries
        { s with subrequestCount := s.subrequestCount + 1 } with ⟨res, s2⟩
    have hne := retryLoop_ne_subrequestLimit cfg net job.url cfg.maxRetries
      { s with subrequestCount := s.subrequestCount + 1 }
    rw [hr] at hne
    simp only [hl, hr] at h
    cases res with
    | ok body => simp at h
    | error e =>
      cases e with
      | subrequestLimit => exact hne rfl
      | tooManySubrequests => simp [FetchErr.isBudget] at h
      | httpOrNetwork => simp [FetchErr.isBudget] at h

/-- C8: with the request counter at the ceiling, `fetchWithRetry` fails
immediately with the `'Subrequest limit reached'` budget error, changing
nothing — no network attempt, no retry, no counter movement; `processJob`
propagates exactly that error; and the queue launches no job from such a
state: every queued job stays pending and the drain still returns normally
with its (empty) result list instead of failing.  Because the error only
arises at the ceiling (`processJob_subrequestLimit_implies_ceiling`) and
the counter never decreases, no further job is launched after it occurs. -/
theorem c8_budget_error_fails_fast_and_halts_queue (cfg : ScraperConfig)
    (net : NetOracle) (parse : ParseOracle) (s : FetchState) (url : String)
    (job : Job) (jobs : List Job)
    (h : cfg.maxSubrequests ≤ s.subrequestCount) :
    fetchWithRetry cfg net url s = (.error .subrequestLimit, s) ∧
      processJob cfg net parse job s = (.error .subrequestLimit, s) ∧
      drainQueue cfg net parse s jobs = ⟨[], [], jobs, [], s⟩ := by
  refine ⟨?_, ?_, ?_⟩
  · simp [fetchWithRetry, h]
  · simp [processJob, h]
  · cases jobs with
    | nil => simp [drainQueue]
    | cons j rest => simp [drainQueue, h]

/-- C8 witness: at the ceiling (counter 50), the fetch fails with the
budget error and a queued job is left pending with no state change. -/
theorem c8_witness :
    fetchWithRetry SCRAPER_CONFIG (fun _ => .fail) "u" ⟨50, [], 0, 9⟩ =
      (.error .subrequestLimit, ⟨50, [], 0, 9⟩) ∧
      drainQueue SCRAPER_CONFIG (fun _ => .fail) (fun _ _ => [])
          ⟨50, [], 0, 9⟩ [⟨"u", "2025-06-01"⟩] =
        ⟨[], [], [⟨"u", "2025-06-01"⟩], [], ⟨50, [], 0, 9⟩⟩ := by
  have h := c8_budget_error_fails_fast_and_halts_queue SCRAPER_CONFIG
    (fun _ => .fail) (fun _ _ => []) ⟨50, [], 0, 9⟩ "u" ⟨"u", "2025-06-01"⟩
    [⟨"u", "2025-06-01"⟩] (by decide)
  exact ⟨h.1, h.2.2⟩

/-! ## C6 — job accounting across completed, pending and dropped -/

/-- C6 counterexample: a single queued job whose only network attempt fails
with the platform's `'Too many subrequests'` error is popped, throws, and
ends up in neither `getCompletedJobs()` nor `getPendingJobs()` — it is lost
for checkpointing (only the ghost `dropped` list records it). -/
theorem c6_counterexample :
    drainQueue SCRAPER_CONFIG (fun _ => .failBudget) (fun _ _ => [])
        ⟨0, [], 0, 0⟩ [⟨"u", "2025-06-01"⟩] =
      ⟨[], [⟨"u", "2025-06-01"⟩], [], [], ⟨2, [], 0, 1⟩⟩ := by
  rfl

/-- C6 amended: after the drain, every added job is accounted for exactly
once across three categories — the completed jobs, the pending jobs, and
the jobs dropped because their processing threw a budget-class error; the
added jobs are a permutation of the three lists together (so no job is
duplicated or counted twice), but a dropped job appears in neither of the
two lists the source exposes. -/
theorem c6_jobs_partitioned (cfg : ScraperConfig) (net : NetOracle)
    (parse : ParseOracle) (s : FetchState) (jobs : List Job) :
    List.Perm jobs ((drainQueue cfg net parse s jobs).completed ++
      (drainQueue cfg net parse s jobs).dropped ++
      (drainQueue cfg net parse s jobs).pending) := by
  induction jobs generalizing s with
  | nil => simp [drainQueue]
  | cons j rest ih =>
    simp only [drainQueue]
    by_cases h : cfg.maxSubrequests ≤ s.subrequestCount
    · rw [if_pos h]
      simp
    · rw [if_neg h]
      rcases hp : processJob cfg net parse j s with ⟨res, s1⟩
      cases res with
      | ok shows =>
        simpa using (ih s1).cons j
      | error e =>
        have h1 := (ih s1).cons j
        have h2 : List.Perm
            (j :: ((drainQueue cfg net parse s1 rest).completed ++
              ((drainQueue cfg net parse s1 rest).dropped ++
                (drainQueue cfg net parse s1 rest).pending)))
            ((drainQueue cfg net parse s1 rest).completed ++
              (j :: ((drainQueue cfg net parse s1 rest).dropped ++
                (drainQueue cfg net parse s1 rest).pending))) :=
          List.perm_middle.symm
        simp only [List.append_assoc] at h1 ⊢
        exact h1.trans h2

/-! ## C1 — budget enforcement

With the configured `MAX_RETRIES = 1`, every call that passes `rateLimit`
adds one counter unit up front and at most one more per (single) network
attempt, and the counter is only gated below the ceiling at call entry.
The invariant `2 * attempts ≤ counter ≤ ceiling + 1` is preserved by every
call and bounds the total number of network attempts by the ceiling. -/

/-- The budget invariant tying the attempt count to the request counter. -/
def budgetInv (maxSub : Nat) (s : FetchState) : Prop :=
  2 * s.attemptsMade ≤ s.subrequestCount ∧ s.subrequestCount ≤ maxSub + 1

/-- The cache write moves neither the counter nor the attempt count. -/
theorem cacheStore_counts (cfg : ScraperConfig) (url body : String)
    (s : FetchState) :
    (cacheStore cfg url body s).subrequestCount = s.subrequestCount ∧
      (cacheStore cfg url body s).attemptsMade = s.attemptsMade := by
  unfold cacheStore
  split <;> simp

/-- One `fetchWithRetry` call preserves the budget invariant when
`maxRetries = 1`. -/
theorem fetchWithRetry_preserves_budgetInv (cfg : ScraperConfig)
    (net : NetOracle) (url : String) (s : FetchState)
    (hR : cfg.maxRetries = 1) (h : budgetInv cfg.maxSubrequests s) :
    budgetInv cfg.maxSubrequests (fetchWithRetry cfg net url s).2 := by
  obtain ⟨h1, h2⟩ := h
  rw [fetchWithRetry]
  by_cases hc : cfg.maxSubrequests ≤ s.subrequestCount
  · rw [if_pos hc]
    exact ⟨h1, h2⟩
  · rw [if_neg hc]
    cases hl : List.lookup url s.pageCache with
    | some body =>
      simp only [hl]
      refine ⟨?_, ?_⟩ <;> simp <;> omega
    | none =>
      simp only [hl, hR, retryLoop]
      cases net s.attemptsMade with
      | ok body =>
        rcases cacheStore_counts cfg url body
          { s with subrequestCount := s.subrequestCount + 1 + 1,
                   attemptsMade := s.attemptsMade + 1 } with ⟨hcs1, hcs2⟩
        constructor
        · rw [hcs2, hcs1]; simp; omega
        · rw [hcs1]; simp; omega
      | failBudget => refine ⟨?_, ?_⟩ <;> simp <;> omega
      | fail =>
        simp only [retryLoop]
        refine ⟨?_, ?_⟩ <;> simp <;> omega

/-- One `processJob` call preserves the budget invariant when
`maxRetries = 1` (its only state change is its `fetchWithRetry` call). -/
theorem processJob_preserves_budgetInv (cfg : ScraperConfig)
    (net : NetOracle) (parse : ParseOracle) (job : Job) (s : FetchState)
    (hR : cfg.maxRetries = 1) (h : budgetInv cfg.maxSubrequests s) :
    budgetInv cfg.maxSubrequests (processJob cfg net parse job s).2 := by
  rw [processJob]
  by_cases hc : cfg.maxSubrequests ≤ s.subrequestCount
  · rw [if_pos hc]
    exact h
  · rw [if_neg hc]
    have hf := fetchWithRetry_preserves_budgetInv cfg net job.url s hR h
    rcases hfr : fetchWithRetry cfg net job.url s with ⟨res, s1⟩
    rw [hfr] at hf
    cases res with
    | ok body => simpa using hf
    | error e =>
      by_cases hb : e.isBudget <;> simp [hb] <;> exact hf

/-- Draining the job queue preserves the budget invariant when
`maxRetries = 1`. -/
theorem drainQueue_preserves_budgetInv (cfg : ScraperConfig)
    (net : NetOracle) (parse : ParseOracle) (hR : cfg.maxRetries = 1) :
    ∀ (jobs : List Job) (s : FetchState), budgetInv cfg.maxSubrequests s →
      budgetInv cfg.maxSubrequests (drainQueue cfg net parse s jobs).state := by
  intro jobs
  induction jobs with
  | nil => intro s h; simpa [drainQueue] using h
  | cons j rest ih =>
    intro s h
    simp only [drainQueue]
    by_cases hc : cfg.maxSubrequests ≤ s.subrequestCount
    · rw [if_pos hc]
      exact h
    · rw [if_neg hc]
      have hp := processJob_preserves_budgetInv cfg net parse j s hR h
      rcases hpr : processJob cfg net parse j s with ⟨res, s1⟩
      rw [hpr] at hp
      cases res with
      | ok shows => simpa using ih s1 hp
      | error e => simpa using ih s1 hp

/-- A whole sequence of direct `fetchWithRetry` calls preserves the budget
invariant when `maxRetries = 1`. -/
theorem callsRun_preserves_budgetInv (cfg : ScraperConfig) (net : NetOracle)
    (hR : cfg.maxRetries = 1) :
    ∀ (urls : List String) (s : FetchState), budgetInv cfg.maxSubrequests s →
      budgetInv cfg.maxSubrequests (callsRun cfg net urls s) := by
  intro urls
  induction urls with
  | nil => intro s h; simpa [callsRun] using h
  | cons url rest ih =>
    intro s h
    exact ih _ (fetchWithRetry_preserves_budgetInv cfg net url s hR h)

/-- C1: an invocation whose counter starts at 0 — modelled as any sequence
of direct `fetchWithRetry` calls (the date discovery) followed by draining
any number of queued jobs — performs at most `maxSubrequests` network fetch
attempts in total (cache hits excluded, every retry counted), for the
configured `maxRetries = 1`. -/
theorem c1_total_attempts_within_budget (cfg : ScraperConfig)
    (net : NetOracle) (parse : ParseOracle) (urls : List String)
    (jobs : List Job) (hR : cfg.maxRetries = 1) :
    (drainQueue cfg net parse (callsRun cfg net urls initialFetchState)
        jobs).state.attemptsMade ≤ cfg.maxSubrequests := by
  have h0 : budgetInv cfg.maxSubrequests initialFetchState :=
    ⟨by simp [initialFetchState], by simp [initialFetchState]⟩
  have h1 := callsRun_preserves_budgetInv cfg net hR urls initialFetchState h0
  have h2 := drainQueue_preserves_budgetInv cfg net parse hR jobs _ h1
  obtain ⟨ha, hb⟩ := h2
  omega

/-- C1 witness: one discovery fetch plus one job on the configured limits
(`maxRetries = 1`, `maxSubrequests = 50`). -/
theorem c1_witness :
    (drainQueue SCRAPER_CONFIG (fun _ => .fail) (fun _ _ => [])
        (callsRun SCRAPER_CONFIG (fun _ => .fail) ["a"] initialFetchState)
        [⟨"b", "2025-06-01"⟩]).state.attemptsMade ≤
      SCRAPER_CONFIG.maxSubrequests :=
  c1_total_attempts_within_budget SCRAPER_CONFIG (fun _ => .fail)
    (fun _ _ => []) ["a"] [⟨"b", "2025-06-01"⟩] rfl

end TgTicketBot
